import Mathlib

/-!
# Verification of the news-sentiment / stock-return analysis pipeline

A shallow embedding of the repository's analysis code
(`src/stock_analysis.py`, `src/sentiment_analysis.py`,
`src/market_analysis.py`) in Lean 4, together with theorems settling the
specification claims about it.

Modelling conventions:
* A float value that may be NaN is `Val := Option ℚ` (`none` = NaN).
* A pandas timestamp-like cell is `DateCell`: either a raw string whose
  parse result (if any) is carried as data, or an already-parsed
  timestamp (day number plus time-of-day).  `pd.to_datetime` becomes
  `toDatetime`, raising (`Except.error`) on an unparseable string.
* A `DataFrame` is a `Frame`: a date index plus named columns.
* Python in-place mutation is made explicit by state passing: each
  function that receives a DataFrame also returns the caller-visible
  final state of that DataFrame.
* `scipy.stats.pearsonr` is modelled by `pearsonModel`, parametrized by
  an arbitrary numeric implementation `impl` for the defined branch;
  the structural behaviour (length check, NaN propagation, the
  constant-input ⇒ NaN rule) follows scipy's documented semantics.
-/

/-- A float value that may be NaN: `none` models NaN / missing. -/
abbrev Val := Option ℚ

/-- A pandas timestamp-like cell.  `str s p` is a raw string `s` whose
parse result is `p` (`none` when the string is unparseable);
`ts day tod` is an already-parsed timestamp with calendar day `day`
and time-of-day `tod`. -/
inductive DateCell where
  | str (s : String) (p : Option (Int × Nat))
  | ts (day : Int) (tod : Nat)
deriving DecidableEq, Repr

/-- Model of `pd.to_datetime` on one cell: a parseable string becomes a
timestamp, an unparseable string raises (pandas `DateParseError`), a
timestamp stays itself. -/
def toDatetime : DateCell → Except String DateCell
  | .str _ (some dt) => .ok (.ts dt.1 dt.2)
  | .str s none => .error ("DateParseError: " ++ s)
  | .ts d t => .ok (.ts d t)

/-- Calendar day of a parsed cell (`.dt.date` / `.normalize()`); on a
string cell it uses the carried parse result (junk `0` if unparseable —
only applied after a successful `toDatetime`). -/
def cellDay : DateCell → Int
  | .str _ (some dt) => dt.1
  | .str _ none => 0
  | .ts d _ => d

/-- Model of `pd.to_datetime` on a whole column: parse every cell,
raising on the first unparseable one. -/
def parseDates : List DateCell → Except String (List DateCell)
  | [] => .ok []
  | c :: cs =>
    match toDatetime c, parseDates cs with
    | .error e, _ => .error e
    | .ok _, .error e => .error e
    | .ok d, .ok ds => .ok (d :: ds)

/-- Model of `pd.to_datetime(index).normalize()`: parse every cell of an
index and truncate to calendar-day granularity, raising on the first
unparseable cell. -/
def parseNormIndex (idx : List DateCell) : Except String (List Int) :=
  (parseDates idx).map (List.map cellDay)

/-- A DataFrame: a date index plus named columns of optional rationals. -/
structure Frame where
  index : List DateCell
  cols : List (String × List Val)
deriving DecidableEq, Repr

/-- Column lookup in a column list; `none` models a Python `KeyError`. -/
def colGet (cols : List (String × List Val)) (c : String) : Option (List Val) :=
  (cols.find? (fun p => p.1 = c)).map (fun p => p.2)

/-- Column access `frame[name]`; `none` models a Python `KeyError`. -/
def Frame.getCol (f : Frame) (c : String) : Option (List Val) :=
  colGet f.cols c

/-- Model of `Series.shift(n)` on the column values (the index is kept by
pandas; callers pair the shifted values with the unchanged index):
`n ≥ 0` moves values down with `n` leading NaNs, `n < 0` moves values up
with `|n|` trailing NaNs. -/
def pshift (n : Int) (vals : List Val) : List Val :=
  if 0 ≤ n then
    List.replicate (min n.toNat vals.length) none ++
      vals.take (vals.length - n.toNat)
  else
    vals.drop (-n).toNat ++ List.replicate (min (-n).toNat vals.length) none

/-- The lag shift used at `stock_analysis.py:154`:
`stock_data['Returns'].shift(-lag)`. -/
def shiftForLag (lag : Int) (vals : List Val) : List Val :=
  pshift (-lag) vals

/-- Look a timestamp up in an (index, values) series; `none` when the
timestamp is absent from the index or its value is NaN. -/
def lookupVal (idx : List Int) (vals : List Val) (t : Int) : Val :=
  ((idx.zip vals).find? (fun p => p.1 = t)).bind (fun p => p.2)

/-- Insert into an ascending list of timestamps (helper for the sorted
union that pandas uses when aligning two differently-indexed series). -/
def insertAsc (t : Int) : List Int → List Int
  | [] => [t]
  | x :: xs => if t ≤ x then t :: x :: xs else x :: insertAsc t xs

/-- Sort a list of timestamps ascending. -/
def sortAsc (l : List Int) : List Int := l.foldr insertAsc []

/-- The index of `pd.DataFrame({'a': s, 'b': r})`: the common index when
the two series share one, otherwise the sorted union of the two
(deduplicated) indexes. -/
def alignIndex (a b : List Int) : List Int :=
  if a = b then a else sortAsc ((a ++ b).dedup)

/-- The composite of DataFrame construction from two series and
`.dropna()` (`stock_analysis.py:157–163`): rows for the aligned index,
keeping exactly the timestamps whose value is present and non-NaN in
both series. -/
def alignDropna (sIdx : List Int) (sVals : List Val)
    (rIdx : List Int) (rVals : List Val) : List (Int × ℚ × ℚ) :=
  (alignIndex sIdx rIdx).filterMap (fun t =>
    match lookupVal sIdx sVals t, lookupVal rIdx rVals t with
    | some a, some b => some (t, a, b)
    | _, _ => none)

/-- scipy's constant-input test `(x == x[0]).all()` (NaN compares
unequal to everything, including itself, so a NaN entry means
not-constant). -/
def isConstCol (xs : List Val) : Bool :=
  xs.all (fun v => match v, xs.headD none with
    | some a, some b => a = b
    | _, _ => false)

/-- Model of `scipy.stats.pearsonr`, parametrized by the numeric
implementation `impl` of the defined branch.  Structural behaviour per
scipy: fewer than 2 observations or mismatched lengths raise; a NaN in
either input propagates to a NaN result; a constant (zero-variance)
input yields (NaN, NaN) rather than raising; otherwise the coefficient
and two-sided p-value computed by `impl` on the underlying rationals. -/
def pearsonModel (impl : List ℚ → List ℚ → ℚ × ℚ)
    (xs ys : List Val) : Except String (Val × Val) :=
  if xs.length < 2 then .error "ValueError: x and y must have length at least 2"
  else if xs.length ≠ ys.length then .error "ValueError: unequal lengths"
  else if xs.any (fun v => v.isNone) || ys.any (fun v => v.isNone) then
    .ok (none, none)
  else if isConstCol xs || isConstCol ys then
    .ok (none, none)
  else
    let r := impl (xs.reduceOption) (ys.reduceOption)
    .ok (some r.1, some r.2)

/-- One result row of the lag sweep
(`{'lag': …, 'correlation': …, 'p_value': …, 'n_obs': …}`). -/
structure Row where
  lag : Int
  correlation : Val
  p_value : Val
  n_obs : Nat
deriving DecidableEq, Repr

/-- The substitute row appended when processing a lag raises
(`stock_analysis.py:190–195`), and also used per lag by the outer
handler (`stock_analysis.py:199–204`). -/
def nanRow (lag : Int) : Row :=
  { lag := lag, correlation := none, p_value := none, n_obs := 0 }

/-- The body of the per-lag `try` block (`stock_analysis.py:152–186`)
for already-normalized frames: fetch the columns (a missing column
raises `KeyError`), shift the returns by `-lag`, align with the
sentiment series and drop NaN rows, then either evaluate the Pearson
correlation (when ≥ 2 rows remain) or emit a NaN row carrying the
actual aligned count. -/
def processLag (impl : List ℚ → List ℚ → ℚ × ℚ)
    (sIdx : List Int) (sCols : List (String × List Val))
    (rIdx : List Int) (rCols : List (String × List Val))
    (col : String) (lag : Int) : Except String Row :=
  match colGet rCols "Returns" with
  | none => .error "KeyError: Returns"
  | some returns =>
    match colGet sCols col with
    | none => .error ("KeyError: " ++ col)
    | some sent =>
      let lagged := shiftForLag lag returns
      let merged := alignDropna sIdx sent rIdx lagged
      if 2 ≤ merged.length then
        match pearsonModel impl (merged.map (fun r => some r.2.1))
            (merged.map (fun r => some r.2.2)) with
        | .error e => .error e
        | .ok rp =>
          .ok { lag := lag, correlation := rp.1, p_value := rp.2,
                n_obs := merged.length }
      else
        .ok { lag := lag, correlation := none, p_value := none,
              n_obs := merged.length }

/-- One iteration of the sweep loop including its `try`/`except`
(`stock_analysis.py:151–195`): the processed row, or the substitute
`nanRow` when processing that lag raised. -/
def sweepStep (impl : List ℚ → List ℚ → ℚ × ℚ)
    (sIdx : List Int) (sCols : List (String × List Val))
    (rIdx : List Int) (rCols : List (String × List Val))
    (col : String) (lag : Int) : Row :=
  match processLag impl sIdx sCols rIdx rCols col lag with
  | .ok row => row
  | .error _ => nanRow lag

/-- The body of the outer `try` block (`stock_analysis.py:120–195`):
normalize both indexes (on `.copy()`s of the frames), then run the
per-lag loop.  An exception escaping this computation is the one the
outer `except` handles. -/
def analyzeSweepTry (impl : List ℚ → List ℚ → ℚ × ℚ)
    (sentiment_data stock_data : Frame) (sentiment_column : String)
    (lags : List Int) : Except String (List Row) :=
  -- stock_data = stock_data.copy(); index normalized on the copy
  match parseNormIndex stock_data.index with
  | .error e => .error e
  | .ok stockIdx =>
    -- sentiment_data = sentiment_data.copy(); index normalized likewise
    match parseNormIndex sentiment_data.index with
    | .error e => .error e
    | .ok sentIdx =>
      .ok (lags.map (sweepStep impl sentIdx sentiment_data.cols
        stockIdx stock_data.cols sentiment_column))

/-- `analyze_sentiment_impact` (`stock_analysis.py:99–206`), with the
caller-visible final states of the two input frames made explicit.
The outer `try` normalizes both indexes on local `.copy()`s (so the
caller's frames come back unchanged); each lag is processed inside its
own `try`, an exception there being replaced by `nanRow` and the sweep
continuing; an exception in the normalization reaches the outer
`except`, which substitutes one `nanRow` per requested lag. -/
def analyzeFull (impl : List ℚ → List ℚ → ℚ × ℚ)
    (sentiment_data stock_data : Frame) (sentiment_column : String)
    (lags : List Int) : List Row × Frame × Frame :=
  let rows :=
    match analyzeSweepTry impl sentiment_data stock_data
        sentiment_column lags with
    | .ok rows => rows
    | .error _ => lags.map nanRow
  -- the caller's frames are returned as passed: only copies were touched
  (rows, sentiment_data, stock_data)

/-- The result table of `analyze_sentiment_impact`. -/
def analyze_sentiment_impact (impl : List ℚ → List ℚ → ℚ × ℚ)
    (sentiment_data stock_data : Frame) (sentiment_column : String)
    (lags : List Int) : List Row :=
  (analyzeFull impl sentiment_data stock_data sentiment_column lags).1

/-- `pd.merge(sentiment, stock['Returns'], left_index=True,
right_index=True, how='inner')` restricted to the two columns the
caller reads (`stock_analysis.py:83–89`): for each left-index cell
present (as is, no normalization) in the right index, the pair of
(sentiment value, return value) — NaNs are kept (there is no `dropna`
here). -/
def mergeInner (sIdx : List DateCell) (sVals : List Val)
    (rIdx : List DateCell) (rVals : List Val) : List (Val × Val) :=
  (sIdx.zip sVals).filterMap (fun p =>
    match ((rIdx.zip rVals).find? (fun q => q.1 = p.1)) with
    | some q => some (p.2, q.2)
    | none => none)

/-- `calculate_correlation` (`stock_analysis.py:65–97`): inner-join the
sentiment frame with the stock returns on the raw index (the function
performs no date normalization of its own), then Pearson when more
than one row remains, `(NaN, NaN)` otherwise.  There is no `try` here:
a missing column raises to the caller. -/
def calculate_correlation (impl : List ℚ → List ℚ → ℚ × ℚ)
    (sentiment_data stock_data : Frame) (sentiment_column : String) :
    Except String (Val × Val) :=
  match stock_data.getCol "Returns" with
  | none => .error "KeyError: Returns"
  | some returns =>
    match sentiment_data.getCol sentiment_column with
    | none => .error ("KeyError: " ++ sentiment_column)
    | some sent =>
      let merged := mergeInner sentiment_data.index sent
        stock_data.index returns
      if 1 < merged.length then
        pearsonModel impl (merged.map (fun p => p.1))
          (merged.map (fun p => p.2))
      else
        .ok (none, none)

/-- The news DataFrame consumed by `market_analysis.py`: headline,
publisher, date, stock columns (all the same length in intent). -/
structure NewsFrame where
  headline : List String
  publisher : List String
  date : List DateCell
  stock : List String
deriving DecidableEq, Repr

/-- Number of occurrences of `x` in `l`. -/
def countOcc (l : List String) (x : String) : Nat :=
  (l.filter (fun y => y = x)).length

/-- Insert into a count-descending list (helper for `value_counts` /
`Counter.most_common` ordering). -/
def insertByCountDesc (p : String × Nat) :
    List (String × Nat) → List (String × Nat)
  | [] => [p]
  | q :: qs => if q.2 < p.2 then p :: q :: qs else q :: insertByCountDesc p qs

/-- Sort (key, count) pairs by descending count. -/
def sortByCountDesc (l : List (String × Nat)) : List (String × Nat) :=
  l.foldr insertByCountDesc []

/-- Model of `Series.value_counts()`: each distinct value with its
frequency, most frequent first. -/
def valueCounts (l : List String) : List (String × Nat) :=
  sortByCountDesc (l.dedup.map (fun x => (x, countOcc l x)))

/-- Model of `collections.Counter(l).most_common(5)`. -/
def mostCommon5 (l : List String) : List (String × Nat) :=
  (valueCounts l).take 5

/-- Insert into an ascending list of strings (pandas `groupby` sorts its
keys). -/
def insertStrAsc (s : String) : List String → List String
  | [] => [s]
  | x :: xs => if s ≤ x then s :: x :: xs else x :: insertStrAsc s xs

/-- Sort strings ascending. -/
def sortStrAsc (l : List String) : List String := l.foldr insertStrAsc []

/-- `df.groupby([key, date]).size().groupby(key).mean()` at one key `k`:
the mean group size equals (rows with key `k`) / (distinct days among
those rows). -/
def avgPerDay (keys : List String) (days : List Int) (k : String) : ℚ :=
  let rows := (keys.zip days).filter (fun r => r.1 = k)
  ((rows.length : ℚ)) / (((rows.map (fun r => r.2)).dedup.length : ℚ))

/-- The dictionary returned by `analyze_publishers`. -/
structure PubStats where
  total_publishers : Nat
  publisher_counts : List (String × Nat)
  avg_articles_per_day : List (String × ℚ)
  publisher_top_stocks : List (String × List (String × Nat))
deriving DecidableEq, Repr

/-- `analyze_publishers` (`market_analysis.py:8–38`), with the
caller-visible final state of `df` made explicit.  The date column is
parsed with `pd.to_datetime` and assigned back into the caller's frame
(no `.copy()` is taken), so the caller sees the parsed column after the
call; an unparseable date raises before any assignment. -/
def analyze_publishers (df : NewsFrame) :
    Except String (PubStats × NewsFrame) :=
  -- publisher_counts = df['publisher'].value_counts()
  let publisher_counts := valueCounts df.publisher
  -- df['date'] = pd.to_datetime(df['date'])   (in place on the caller's df)
  match parseDates df.date with
  | .error e => .error e
  | .ok parsedDates =>
    let df : NewsFrame := { df with date := parsedDates }
    let days := df.date.map cellDay
    let pubKeys := sortStrAsc df.publisher.dedup
    let avg := pubKeys.map (fun p => (p, avgPerDay df.publisher days p))
    let top := pubKeys.map (fun p =>
      (p, mostCommon5 (((df.publisher.zip df.stock).filter
        (fun r => r.1 = p)).map (fun r => r.2))))
    .ok ({ total_publishers := publisher_counts.length,
           publisher_counts := publisher_counts,
           avg_articles_per_day := avg,
           publisher_top_stocks := top }, df)

/-- The dictionary returned by `analyze_stocks`. -/
structure StockStats where
  total_stocks : Nat
  stock_counts : List (String × Nat)
  avg_daily_volume : List (String × ℚ)
  publisher_diversity : List (String × Nat)
deriving DecidableEq, Repr

/-- `analyze_stocks` (`market_analysis.py:40–70`), with the
caller-visible final state of `df` made explicit; like
`analyze_publishers` it parses the date column in place on the caller's
frame. -/
def analyze_stocks (df : NewsFrame) :
    Except String (StockStats × NewsFrame) :=
  -- stock_counts = df['stock'].value_counts()
  let stock_counts := valueCounts df.stock
  -- df['date'] = pd.to_datetime(df['date'])   (in place on the caller's df)
  match parseDates df.date with
  | .error e => .error e
  | .ok parsedDates =>
    let df : NewsFrame := { df with date := parsedDates }
    let days := df.date.map cellDay
    let keys := sortStrAsc df.stock.dedup
    let avg := keys.map (fun s => (s, avgPerDay df.stock days s))
    let div := keys.map (fun s =>
      (s, (((df.stock.zip df.publisher).filter
        (fun r => r.1 = s)).map (fun r => r.2)).dedup.length))
    .ok ({ total_stocks := stock_counts.length,
           stock_counts := stock_counts,
           avg_daily_volume := avg,
           publisher_diversity := div }, df)

/-- The headline DataFrame consumed by `analyze_headlines`. -/
structure HeadlineFrame where
  headline : List String
  date : List DateCell
deriving DecidableEq, Repr

/-- Sentiment category labels produced by `pd.cut`. -/
inductive SentCategory where
  | negative | neutral | positive
deriving DecidableEq, Repr

/-- Model of `pd.cut(x, bins=[b1, b2, b3, b4], labels=[negative,
neutral, positive])` on one value: left-open right-closed bins,
NaN (`none`) outside the bins. -/
def cut3 (b1 b2 b3 b4 x : ℚ) : Option SentCategory :=
  if b1 < x ∧ x ≤ b2 then some .negative
  else if b2 < x ∧ x ≤ b3 then some .neutral
  else if b3 < x ∧ x ≤ b4 then some .positive
  else none

/-- The frame returned by `analyze_headlines`: the input columns plus
the added sentiment scores and categories. -/
structure ScoredFrame where
  headline : List String
  date : List DateCell
  vader_sentiment : List ℚ
  textblob_sentiment : List ℚ
  vader_category : List (Option SentCategory)
  textblob_category : List (Option SentCategory)
deriving DecidableEq, Repr

/-- `analyze_headlines` (`sentiment_analysis.py:46–82`), parametrized by
the external scorers (VADER compound, TextBlob polarity), with the
caller-visible final state of `df` made explicit.  The function takes
`df.copy()` first, so the caller's frame comes back unchanged; the date
column is parsed with `pd.to_datetime(…, format='mixed', utc=True)`
(then converted to the market time zone), and an unparseable value
raises out of the function — there is no `try` here. -/
def analyze_headlines (vader textblob : String → ℚ)
    (df : HeadlineFrame) : Except String (ScoredFrame × HeadlineFrame) :=
  -- df = df.copy(): the parsing below acts on the copy only
  match parseDates df.date with
  | .error e => .error e
  | .ok parsedDates =>
    let v := df.headline.map vader
    let t := df.headline.map textblob
    .ok ({ headline := df.headline, date := parsedDates,
           vader_sentiment := v, textblob_sentiment := t,
           vader_category := v.map (cut3 (-1) (-1/20) (1/20) 1),
           textblob_category := t.map (cut3 (-1) (-1/10) (1/10) 1) },
         df)

/-- The concrete Pearson implementation used by witnesses: any function
of the right type works, since the claims only concern the structural
behaviour around it. -/
def implZero : List ℚ → List ℚ → ℚ × ℚ := fun _ _ => (0, 0)

/-- The total companion of `toDatetime`: what `pd.to_datetime` produces
on a parseable cell (used to describe the mutated date column). -/
def forceDatetime : DateCell → DateCell
  | .str _ (some dt) => .ts dt.1 dt.2
  | .str s none => .str s none
  | .ts d t => .ts d t

/-! ## Helper lemmas -/

theorem map_id_of {α : Type} {f : α → α} {l : List α} (h : ∀ a ∈ l, f a = a) :
    l.map f = l :=
  (List.map_congr_left h).trans (List.map_id l)

theorem processLag_lag {impl : List ℚ → List ℚ → ℚ × ℚ}
    {sIdx : List Int} {sCols : List (String × List Val)}
    {rIdx : List Int} {rCols : List (String × List Val)}
    {col : String} {lag : Int} {row : Row}
    (h : processLag impl sIdx sCols rIdx rCols col lag = .ok row) :
    row.lag = lag := by
  unfold processLag at h
  cases hr : colGet rCols "Returns" <;> rw [hr] at h
  · exact absurd h (by simp)
  cases hs : colGet sCols col <;> rw [hs] at h
  · exact absurd h (by simp)
  simp only at h
  split at h
  · split at h
    · exact absurd h (by simp)
    · rw [← (Except.ok.injEq ..).mp h]
  · rw [← (Except.ok.injEq ..).mp h]

theorem sweepStep_lag (impl : List ℚ → List ℚ → ℚ × ℚ)
    (sIdx : List Int) (sCols : List (String × List Val))
    (rIdx : List Int) (rCols : List (String × List Val))
    (col : String) (lag : Int) :
    (sweepStep impl sIdx sCols rIdx rCols col lag).lag = lag := by
  unfold sweepStep
  cases h : processLag impl sIdx sCols rIdx rCols col lag
  · rfl
  · exact processLag_lag h

theorem processLag_small {impl : List ℚ → List ℚ → ℚ × ℚ}
    {sIdx : List Int} {sCols : List (String × List Val)}
    {rIdx : List Int} {rCols : List (String × List Val)}
    {col : String} {lag : Int} {row : Row}
    (h : processLag impl sIdx sCols rIdx rCols col lag = .ok row)
    (hn : row.n_obs < 2) :
    row.correlation = none ∧ row.p_value = none := by
  unfold processLag at h
  cases hr : colGet rCols "Returns" <;> rw [hr] at h
  · exact absurd h (by simp)
  cases hs : colGet sCols col <;> rw [hs] at h
  · exact absurd h (by simp)
  simp only at h
  split at h
  case isTrue hlen =>
    split at h
    · exact absurd h (by simp)
    · rw [← (Except.ok.injEq ..).mp h] at hn
      simp at hn
      omega
  case isFalse hlen =>
    rw [← (Except.ok.injEq ..).mp h]
    exact ⟨rfl, rfl⟩

theorem sweepStep_small {impl : List ℚ → List ℚ → ℚ × ℚ}
    {sIdx : List Int} {sCols : List (String × List Val)}
    {rIdx : List Int} {rCols : List (String × List Val)}
    {col : String} {lag : Int}
    (hn : (sweepStep impl sIdx sCols rIdx rCols col lag).n_obs < 2) :
    (sweepStep impl sIdx sCols rIdx rCols col lag).correlation = none ∧
    (sweepStep impl sIdx sCols rIdx rCols col lag).p_value = none := by
  cases h : processLag impl sIdx sCols rIdx rCols col lag with
  | error e =>
    unfold sweepStep
    rw [h]
    exact ⟨rfl, rfl⟩
  | ok row =>
    unfold sweepStep at hn ⊢
    rw [h] at hn ⊢
    exact processLag_small h hn

theorem shift_zero (vals : List Val) : shiftForLag 0 vals = vals := by
  unfold shiftForLag pshift
  simp

theorem lookupVal_mem {idx : List Int} {vals : List Val} {t : Int} {a : ℚ}
    (h : lookupVal idx vals t = some a) : t ∈ idx := by
  unfold lookupVal at h
  cases hf : (idx.zip vals).find? (fun p => p.1 = t) with
  | none => rw [hf] at h; exact absurd h (by simp)
  | some p =>
    have hp : p.1 = t := by
      have := List.find?_some hf
      exact of_decide_eq_true this
    have hmem : p ∈ idx.zip vals := List.mem_of_find?_eq_some hf
    obtain ⟨x, y⟩ := p
    have := List.of_mem_zip hmem
    rw [← hp]
    exact this.1

theorem mem_insertAsc {x t : Int} {l : List Int} :
    x ∈ insertAsc t l ↔ x = t ∨ x ∈ l := by
  induction l with
  | nil => simp [insertAsc]
  | cons y ys ih =>
    unfold insertAsc
    split
    · simp
    · simp only [List.mem_cons, ih]
      tauto

theorem mem_sortAsc {x : Int} {l : List Int} : x ∈ sortAsc l ↔ x ∈ l := by
  induction l with
  | nil => simp [sortAsc]
  | cons y ys ih =>
    unfold sortAsc at ih ⊢
    simp only [List.foldr_cons, mem_insertAsc, ih, List.mem_cons]

theorem mem_alignIndex {t : Int} {a b : List Int} (h : t ∈ a ∨ t ∈ b) :
    t ∈ alignIndex a b := by
  unfold alignIndex
  split
  case isTrue heq => rcases h with h | h
                     · exact h
                     · rw [heq]; exact h
  case isFalse =>
    rw [mem_sortAsc, List.mem_dedup, List.mem_append]
    exact h

theorem alignDropna_mem_iff {sIdx rIdx : List Int} {sVals rVals : List Val}
    {t : Int} {a b : ℚ} :
    (t, a, b) ∈ alignDropna sIdx sVals rIdx rVals ↔
      lookupVal sIdx sVals t = some a ∧ lookupVal rIdx rVals t = some b := by
  unfold alignDropna
  rw [List.mem_filterMap]
  constructor
  · rintro ⟨u, hu, hf⟩
    cases h1 : lookupVal sIdx sVals u <;> rw [h1] at hf
    · exact absurd hf (by simp)
    cases h2 : lookupVal rIdx rVals u <;> rw [h2] at hf
    · exact absurd hf (by simp)
    · simp only [Option.some.injEq, Prod.mk.injEq] at hf
      obtain ⟨hut, hab⟩ := hf
      rw [← hut, h1, h2, hab.1, hab.2]
      exact ⟨rfl, rfl⟩
  · rintro ⟨h1, h2⟩
    refine ⟨t, mem_alignIndex (Or.inl (lookupVal_mem h1)), ?_⟩
    rw [h1, h2]

theorem alignDropna_nil_of_disjoint {sIdx rIdx : List Int}
    {sVals rVals : List Val} (h : ∀ t, t ∈ sIdx → t ∉ rIdx) :
    alignDropna sIdx sVals rIdx rVals = [] := by
  rw [List.eq_nil_iff_forall_not_mem]
  rintro ⟨t, a, b⟩ hmem
  obtain ⟨h1, h2⟩ := alignDropna_mem_iff.mp hmem
  exact h t (lookupVal_mem h1) (lookupVal_mem h2)

theorem sweepStep_nobs_zero_of_disjoint {impl : List ℚ → List ℚ → ℚ × ℚ}
    {sIdx rIdx : List Int} {sCols rCols : List (String × List Val)}
    {col : String} {lag : Int}
    (h : ∀ t, t ∈ sIdx → t ∉ rIdx) :
    (sweepStep impl sIdx sCols rIdx rCols col lag).n_obs = 0 := by
  unfold sweepStep processLag
  cases hr : colGet rCols "Returns"
  · rfl
  cases hs : colGet sCols col
  · rfl
  dsimp only
  rw [alignDropna_nil_of_disjoint h]
  rw [if_neg (by simp)]
  rfl

theorem parseDates_error {l : List DateCell} {c : DateCell} {msg : String}
    (hc : c ∈ l) (he : toDatetime c = .error msg) :
    ∃ e, parseDates l = .error e := by
  induction l with
  | nil => cases hc
  | cons x xs ih =>
    cases hx : toDatetime x with
    | error e =>
      refine ⟨e, ?_⟩
      unfold parseDates
      rw [hx]
    | ok d =>
      have hcx : c ∈ xs := by
        rcases List.mem_cons.mp hc with h | h
        · rw [← h] at hx
          rw [he] at hx
          exact absurd hx (by simp)
        · exact h
      obtain ⟨e, hpe⟩ := ih hcx
      refine ⟨e, ?_⟩
      unfold parseDates
      rw [hx, hpe]

theorem toDatetime_ok_force {c : DateCell} {d : DateCell}
    (h : toDatetime c = .ok d) : forceDatetime c = d := by
  cases c with
  | str s p =>
    cases p with
    | none => exact absurd h (by simp [toDatetime])
    | some q =>
      simp only [toDatetime, Except.ok.injEq] at h
      rw [← h]
      rfl
  | ts d0 t0 =>
    simp only [toDatetime, Except.ok.injEq] at h
    rw [← h]
    rfl

theorem parseDates_ok {l : List DateCell}
    (h : ∀ c ∈ l, ∃ dt, toDatetime c = .ok dt) :
    parseDates l = .ok (l.map forceDatetime) := by
  induction l with
  | nil => rfl
  | cons x xs ih =>
    obtain ⟨dt, hdt⟩ := h x (List.mem_cons_self x xs)
    have hxs := ih (fun c hc => h c (List.mem_cons_of_mem _ hc))
    unfold parseDates
    rw [hdt, hxs]
    dsimp only
    rw [List.map_cons, toDatetime_ok_force hdt]

/-! ## Claim theorems -/

/-- C1: every call to `analyze_sentiment_impact` returns exactly one
result row per element of the lag list, and the rows' `lag` fields
equal the input lag values in the same order, regardless of per-lag or
whole-input failures. -/
theorem sweep_one_row_per_lag_in_order (impl : List ℚ → List ℚ → ℚ × ℚ)
    (sent stock : Frame) (col : String) (lags : List Int) :
    (analyze_sentiment_impact impl sent stock col lags).map Row.lag = lags ∧
    (analyze_sentiment_impact impl sent stock col lags).length =
      lags.length := by
  have hmap :
      (analyze_sentiment_impact impl sent stock col lags).map Row.lag =
        lags := by
    unfold analyze_sentiment_impact analyzeFull analyzeSweepTry
    cases h1 : parseNormIndex stock.index
    · simp only [List.map_map]
      exact map_id_of (fun l _ => rfl)
    cases h2 : parseNormIndex sent.index
    · simp only [List.map_map]
      exact map_id_of (fun l _ => rfl)
    · simp only [List.map_map]
      exact map_id_of (fun l _ => sweepStep_lag ..)
  refine ⟨hmap, ?_⟩
  have := congrArg List.length hmap
  simpa using this

/-- C2: in every result row of `analyze_sentiment_impact`, fewer than 2
observations forces both the correlation and the p-value to be NaN. -/
theorem row_nobs_lt_two_nan {impl : List ℚ → List ℚ → ℚ × ℚ}
    {sent stock : Frame} {col : String} {lags : List Int} {row : Row}
    (hrow : row ∈ analyze_sentiment_impact impl sent stock col lags)
    (hn : row.n_obs < 2) :
    row.correlation = none ∧ row.p_value = none := by
  unfold analyze_sentiment_impact analyzeFull analyzeSweepTry at hrow
  cases h1 : parseNormIndex stock.index <;> rw [h1] at hrow
  · rcases List.mem_map.mp hrow with ⟨l, _, hl⟩
    rw [← hl]
    exact ⟨rfl, rfl⟩
  cases h2 : parseNormIndex sent.index <;> rw [h2] at hrow
  · rcases List.mem_map.mp hrow with ⟨l, _, hl⟩
    rw [← hl]
    exact ⟨rfl, rfl⟩
  · rcases List.mem_map.mp hrow with ⟨l, _, hl⟩
    rw [← hl] at hn ⊢
    exact sweepStep_small hn

/-- Witness for C2: a one-day overlap yields a row with `n_obs = 1`,
whose correlation and p-value the theorem shows to be NaN. -/
theorem row_nobs_lt_two_nan_witness :
    (Row.mk 0 none none 1).correlation = none ∧
    (Row.mk 0 none none 1).p_value = none :=
  @row_nobs_lt_two_nan implZero
    (Frame.mk [DateCell.ts 0 0] [("s", [some 1])])
    (Frame.mk [DateCell.ts 0 0] [("Returns", [some 2])])
    "s" [0] (Row.mk 0 none none 1)
    (by decide) (by decide)

/-- C3: when both index normalizations succeed and processing one lag
raises, the sweep is not aborted: that lag's output row is the
substitute NaN row with `n_obs = 0`, the rows before it are exactly the
sweep of the preceding lags, and the rows after it are exactly the
sweep of the remaining lags. -/
theorem per_lag_failure_isolated {impl : List ℚ → List ℚ → ℚ × ℚ}
    {sent stock : Frame} {col : String} {lags : List Int}
    {sIdx rIdx : List Int} {i : Nat} {e : String}
    (hr : parseNormIndex stock.index = .ok rIdx)
    (hs : parseNormIndex sent.index = .ok sIdx)
    (hi : i < lags.length)
    (herr : processLag impl sIdx sent.cols rIdx stock.cols col lags[i] =
      .error e) :
    (analyze_sentiment_impact impl sent stock col lags)[i]? =
      some (nanRow lags[i]) ∧
    (analyze_sentiment_impact impl sent stock col lags).take i =
      analyze_sentiment_impact impl sent stock col (lags.take i) ∧
    (analyze_sentiment_impact impl sent stock col lags).drop (i + 1) =
      analyze_sentiment_impact impl sent stock col (lags.drop (i + 1)) := by
  unfold analyze_sentiment_impact analyzeFull analyzeSweepTry
  rw [hr, hs]
  refine ⟨?_, ?_, ?_⟩
  · rw [List.getElem?_map, List.getElem?_eq_getElem hi, Option.map_some']
    unfold sweepStep
    rw [herr]
  · exact (List.map_take ..).symm
  · exact (List.map_drop ..).symm

/-- Witness for C3: a stock frame without a `Returns` column makes
every per-lag body raise `KeyError`; the first row still comes out as
the NaN substitute row. -/
theorem per_lag_failure_isolated_witness :
    (analyze_sentiment_impact implZero
      (Frame.mk [DateCell.ts 0 0] [("s", [some 1])])
      (Frame.mk [DateCell.ts 0 0] [])
      "s" [0, 1])[0]? = some (nanRow 0) :=
  (@per_lag_failure_isolated implZero
    (Frame.mk [DateCell.ts 0 0] [("s", [some 1])])
    (Frame.mk [DateCell.ts 0 0] [])
    "s" [0, 1] [0] [0] 0 "KeyError: Returns"
    rfl rfl (by decide) rfl).1

/-- C4, counterexample: on a stock frame whose index holds an
unparseable timestamp, index normalization does signal a
`DateParseError` (first conjunct), yet `analyze_sentiment_impact`
returns normally with one all-NaN row per lag (second conjunct): the
error is absorbed by the outer handler, not propagated to the caller,
so the claim as stated is false for this pipeline. -/
theorem date_parse_error_absorbed_cx :
    analyzeSweepTry implZero
      (Frame.mk [DateCell.ts 0 0] [("s", [some 1])])
      (Frame.mk [DateCell.str "garbage" none] [("Returns", [some 1])])
      "s" [0, 1] = .error "DateParseError: garbage" ∧
    analyze_sentiment_impact implZero
      (Frame.mk [DateCell.ts 0 0] [("s", [some 1])])
      (Frame.mk [DateCell.str "garbage" none] [("Returns", [some 1])])
      "s" [0, 1] = [nanRow 0, nanRow 1] :=
  ⟨rfl, rfl⟩

/-- C4, amended: an unparseable timestamp signals a `DateParseError`
that propagates to the caller of `analyze_headlines` (which has no
handler), while in `analyze_sentiment_impact` the outer handler absorbs
any normalization error and substitutes one all-NaN row (n_obs = 0) per
requested lag instead of propagating. -/
theorem date_parse_error_amended :
    (∀ (vader textblob : String → ℚ) (df : HeadlineFrame)
      (c : DateCell) (msg : String),
      c ∈ df.date → toDatetime c = .error msg →
      ∃ e, analyze_headlines vader textblob df = .error e) ∧
    (∀ (impl : List ℚ → List ℚ → ℚ × ℚ) (sent stock : Frame)
      (col : String) (lags : List Int) (e : String),
      analyzeSweepTry impl sent stock col lags = .error e →
      analyze_sentiment_impact impl sent stock col lags =
        lags.map nanRow) := by
  constructor
  · intro vader textblob df c msg hc he
    obtain ⟨e, hpe⟩ := parseDates_error hc he
    refine ⟨e, ?_⟩
    unfold analyze_headlines
    rw [hpe]
  · intro impl sent stock col lags e habs
    unfold analyze_sentiment_impact analyzeFull
    rw [habs]

/-- Witness for the amended C4: the unparseable-index input from the
counterexample indeed produces the full-NaN-per-lag output. -/
theorem date_parse_error_amended_witness :
    analyze_sentiment_impact implZero
      (Frame.mk [DateCell.ts 0 0] [("s", [some 1])])
      (Frame.mk [DateCell.str "garbage" none] [("Returns", [some 1])])
      "s" [0, 1] = ([0, 1] : List Int).map nanRow :=
  date_parse_error_amended.2 implZero
    (Frame.mk [DateCell.ts 0 0] [("s", [some 1])])
    (Frame.mk [DateCell.str "garbage" none] [("Returns", [some 1])])
    "s" [0, 1] "DateParseError: garbage" rfl

/-- C5: for a non-negative lag, `shift(-lag)` replaces each position's
value by the value `lag` positions later, turns the last `lag`
positions into NaN, keeps the length, and shifting by lag 0 is the
identity. -/
theorem shift_semantics (vals : List Val) (lag : Int) (h : 0 ≤ lag) :
    (shiftForLag lag vals).length = vals.length ∧
    (∀ i : Nat, i + lag.toNat < vals.length →
      (shiftForLag lag vals)[i]? = vals[i + lag.toNat]?) ∧
    (∀ i : Nat, i < vals.length → vals.length ≤ i + lag.toNat →
      (shiftForLag lag vals)[i]? = some none) ∧
    shiftForLag 0 vals = vals := by
  rcases eq_or_lt_of_le h with h0 | hpos
  · rw [← h0]
    refine ⟨by rw [shift_zero], ?_, ?_, shift_zero vals⟩
    · intro i hi
      rw [shift_zero]
      simp
    · intro i hi1 hi2
      simp at hi2
      omega
  · have hsh : shiftForLag lag vals =
        vals.drop lag.toNat ++ List.replicate (min lag.toNat vals.length) none := by
      unfold shiftForLag pshift
      rw [if_neg (by omega), neg_neg]
    rw [hsh]
    have hdl : (vals.drop lag.toNat).length = vals.length - lag.toNat :=
      List.length_drop ..
    refine ⟨?_, ?_, ?_, shift_zero vals⟩
    · simp only [List.length_append, hdl, List.length_replicate]
      omega
    · intro i hi
      rw [List.getElem?_append, if_pos (by omega), List.getElem?_drop]
      congr 1
      omega
    · intro i hi1 hi2
      rw [List.getElem?_append, if_neg (by omega), List.getElem?_replicate,
        if_pos (by simp only [hdl]; omega)]

/-- Witness for C5: shifting a 3-element series by lag 1 keeps its
length. -/
theorem shift_semantics_witness :
    (0 : Int) ≤ 1 ∧
    (shiftForLag 1 [some 1, some 2, none]).length =
      ([some 1, some 2, none] : List Val).length :=
  ⟨by decide, (shift_semantics [some 1, some 2, none] 1 (by decide)).1⟩

/-- C6: a zero-variance input on either side makes the correlation
evaluation return NaN rather than raise (first conjunct, for any
implementation and any aligned pair of length ≥ 2 with either sequence
constant); in particular the constant sentiment series {1, 1, 1}
against three varying returns on the same dates yields the sweep row
with correlation NaN and `n_obs = 3`, not the failure row with
`n_obs = 0` (second conjunct). -/
theorem constant_input_gives_nan :
    (∀ (impl : List ℚ → List ℚ → ℚ × ℚ) (xs ys : List Val),
      2 ≤ xs.length → xs.length = ys.length →
      isConstCol xs = true ∨ isConstCol ys = true →
      pearsonModel impl xs ys = .ok (none, none)) ∧
    (∀ impl : List ℚ → List ℚ → ℚ × ℚ,
      analyze_sentiment_impact impl
        (Frame.mk [DateCell.ts 0 0, DateCell.ts 1 0, DateCell.ts 2 0]
          [("sentiment", [some 1, some 1, some 1])])
        (Frame.mk [DateCell.ts 0 0, DateCell.ts 1 0, DateCell.ts 2 0]
          [("Returns", [some (1/100), some (1/50), some (-1/100)])])
        "sentiment" [0] =
      [{ lag := 0, correlation := none, p_value := none, n_obs := 3 }]) := by
  constructor
  · intro impl xs ys h2 hlen hconst
    unfold pearsonModel
    rw [if_neg (by omega), if_neg (by omega)]
    split
    · rfl
    · rcases hconst with hc | hc <;> rw [if_pos (by rw [hc]; simp)]
  · intro impl
    rfl

/-- Witness for C6: the pair ([0, 2], [1, 1]) with a constant second
(returns) sequence evaluates to (NaN, NaN). -/
theorem constant_input_gives_nan_witness :
    pearsonModel implZero [some 0, some 2] [some 1, some 1] =
      .ok (none, none) :=
  constant_input_gives_nan.1 implZero [some 0, some 2] [some 1, some 1]
    (by decide) (by decide) (Or.inr (by decide))

/-- C7: when both columns exist, `calculate_correlation` returns
(NaN, NaN) without raising whenever the raw-index inner join has fewer
than 2 rows, and the Pearson coefficient and two-sided p-value (the
`pearsonr` result on the joined columns) otherwise. -/
theorem calculate_correlation_guard {impl : List ℚ → List ℚ → ℚ × ℚ}
    {sent stock : Frame} {col : String} {rv sv : List Val}
    (hr : stock.getCol "Returns" = some rv)
    (hs : sent.getCol col = some sv) :
    ((mergeInner sent.index sv stock.index rv).length < 2 →
      calculate_correlation impl sent stock col = .ok (none, none)) ∧
    (2 ≤ (mergeInner sent.index sv stock.index rv).length →
      calculate_correlation impl sent stock col =
        pearsonModel impl
          ((mergeInner sent.index sv stock.index rv).map (fun p => p.1))
          ((mergeInner sent.index sv stock.index rv).map (fun p => p.2))) := by
  unfold calculate_correlation
  rw [hr, hs]
  dsimp only
  constructor
  · intro hlt
    rw [if_neg (by omega)]
  · intro hge
    rw [if_pos (by omega)]

/-- Witness for C7: disjoint indexes join to 0 rows and the result is
(NaN, NaN), not an exception. -/
theorem calculate_correlation_guard_witness :
    calculate_correlation implZero
      (Frame.mk [DateCell.ts 0 0] [("s", [some 1])])
      (Frame.mk [DateCell.ts 5 0] [("Returns", [some 1])])
      "s" = .ok (none, none) :=
  (@calculate_correlation_guard implZero
    (Frame.mk [DateCell.ts 0 0] [("s", [some 1])])
    (Frame.mk [DateCell.ts 5 0] [("Returns", [some 1])])
    "s" [some 1] [some 1] rfl rfl).1 (by decide)

/-- C8: alignment keeps exactly the timestamps present in both series
with non-missing values in both, pairing the two values per timestamp
(first conjunct); and when the two (normalized) indexes share no
timestamp, every row of the sweep output has `n_obs = 0` (second
conjunct). -/
theorem alignment_inner_join :
    (∀ (sIdx rIdx : List Int) (sVals rVals : List Val) (t : Int) (a b : ℚ),
      (t, a, b) ∈ alignDropna sIdx sVals rIdx rVals ↔
        lookupVal sIdx sVals t = some a ∧
        lookupVal rIdx rVals t = some b) ∧
    (∀ (impl : List ℚ → List ℚ → ℚ × ℚ) (sent stock : Frame)
      (col : String) (lags : List Int) (sIdx rIdx : List Int),
      parseNormIndex sent.index = .ok sIdx →
      parseNormIndex stock.index = .ok rIdx →
      (∀ t, t ∈ sIdx → t ∉ rIdx) →
      ∀ row ∈ analyze_sentiment_impact impl sent stock col lags,
        row.n_obs = 0) := by
  constructor
  · intro sIdx rIdx sVals rVals t a b
    exact alignDropna_mem_iff
  · intro impl sent stock col lags sIdx rIdx hs hr hdisj row hrow
    unfold analyze_sentiment_impact analyzeFull analyzeSweepTry at hrow
    rw [hr, hs] at hrow
    rcases List.mem_map.mp hrow with ⟨l, _, hl⟩
    rw [← hl]
    exact sweepStep_nobs_zero_of_disjoint hdisj

/-- Witness for C8: series on days {0, 1} against returns on days
{10, 11} share no timestamp, and the sweep rows all carry
`n_obs = 0`. -/
theorem alignment_inner_join_witness : (nanRow 0).n_obs = 0 :=
  alignment_inner_join.2 implZero
    (Frame.mk [DateCell.ts 0 0, DateCell.ts 1 0] [("s", [some 1, some 2])])
    (Frame.mk [DateCell.ts 10 0, DateCell.ts 11 0]
      [("Returns", [some 1, some 2])])
    "s" [0, 1] [0, 1] [10, 11] rfl rfl (by decide) (nanRow 0) (by decide)

/-- C9: the sweep is a pure function of its inputs: the caller's two
frames come back unchanged (the code mutates only `.copy()`s), and
re-running the sweep on the frames returned by a first run reproduces
the first run's output. -/
theorem sweep_pure_no_mutation (impl : List ℚ → List ℚ → ℚ × ℚ)
    (sent stock : Frame) (col : String) (lags : List Int) :
    (analyzeFull impl sent stock col lags).2.1 = sent ∧
    (analyzeFull impl sent stock col lags).2.2 = stock ∧
    (analyzeFull impl (analyzeFull impl sent stock col lags).2.1
        (analyzeFull impl sent stock col lags).2.2 col lags).1 =
      (analyzeFull impl sent stock col lags).1 :=
  ⟨rfl, rfl, rfl⟩

/-- C10: with a parseable date column, `analyze_publishers` and
`analyze_stocks` both succeed and hand the caller back a frame whose
date column has been replaced by its datetime-parsed version — the
in-place mutation — while the headline, publisher and stock columns
are unchanged. -/
theorem market_analysis_date_mutation (df : NewsFrame)
    (h : ∀ c ∈ df.date, ∃ dt, toDatetime c = .ok dt) :
    (analyze_publishers df).map (fun r => r.2) =
      .ok { df with date := df.date.map forceDatetime } ∧
    (analyze_stocks df).map (fun r => r.2) =
      .ok { df with date := df.date.map forceDatetime } ∧
    ({ df with date := df.date.map forceDatetime } : NewsFrame).headline =
      df.headline ∧
    ({ df with date := df.date.map forceDatetime } : NewsFrame).publisher =
      df.publisher ∧
    ({ df with date := df.date.map forceDatetime } : NewsFrame).stock =
      df.stock := by
  refine ⟨?_, ?_, rfl, rfl, rfl⟩
  · unfold analyze_publishers
    rw [parseDates_ok h]
    rfl
  · unfold analyze_stocks
    rw [parseDates_ok h]
    rfl

/-- Witness for C10: a one-row frame with a parseable date string comes
back from `analyze_publishers` with the date cell replaced by the
parsed timestamp and the other columns intact. -/
theorem market_analysis_date_mutation_witness :
    (analyze_publishers (NewsFrame.mk ["h1"] ["Reuters"]
        [DateCell.str "2020-01-01" (some (18262, 600))] ["TSLA"])).map
      (fun r => r.2) =
    .ok (NewsFrame.mk ["h1"] ["Reuters"] [DateCell.ts 18262 600] ["TSLA"]) :=
  (market_analysis_date_mutation
    (NewsFrame.mk ["h1"] ["Reuters"]
      [DateCell.str "2020-01-01" (some (18262, 600))] ["TSLA"])
    (by
      intro c hc
      simp only [List.mem_singleton] at hc
      rw [hc]
      exact ⟨DateCell.ts 18262 600, rfl⟩)).1
